import Mathlib

/-
Verification of the `Settings` store (Settings.py), an extension of Python's
configparser.ConfigParser.  The Python classes are shallowly embedded:

  * the parser state (`_sections`, `_defaults` i.e. the DEFAULT section,
    and the subclass fields `defaults`, `original`, `fallback`,
    `ignored_sections`) becomes the structure `Settings`;
  * ordered Python dicts become association lists (insertion order kept,
    overwrites in place, new keys appended);
  * fallible operations return `Except SErr`; distinct Python exception
    situations get distinct `SErr` constructors;
  * option names pass through `optionxform` (lower-casing), exactly where
    configparser applies it;
  * configparser's default `BasicInterpolation` is modelled
    (`before_set` validation on writes, `before_get` expansion on reads),
    since `ConfigParser.set`/`get` run it;
  * the `_UNSET` fallback sentinel becomes `Option.none`.
-/

/-- Python values that flow through the Settings API: str, int, bool, None.
(`getfloat` is not needed by the properties below and floats are not
modelled.) -/
inductive PyVal
  | pstr (s : String)
  | pint (n : Int)
  | pbool (b : Bool)
  | pnone
deriving DecidableEq, Repr

/-- Python `str()` of a value, as used by `Settings.set` and by the default
suppression comparison `value == str(self.defaults[section][option])`. -/
def pyStr : PyVal → String
  | PyVal.pstr s => s
  | PyVal.pint n => toString n
  | PyVal.pbool b => if b then "True" else "False"
  | PyVal.pnone => "None"

/-- Numeric view used by Python `==`/`!=` (bool is a subtype of int). -/
def pyNum : PyVal → Option Int
  | PyVal.pint n => some n
  | PyVal.pbool b => some (if b then 1 else 0)
  | _ => Option.none

/-- Python equality between the modelled values (`True == 1`, strings by
content, no cross-kind equality otherwise).  `remember_fallback` compares
recorded and supplied fallbacks with `!=`. -/
def pyEq (a b : PyVal) : Bool :=
  match pyNum a, pyNum b with
  | some m, some n => m == n
  | _, _ =>
    match a, b with
    | PyVal.pstr s, PyVal.pstr t => s == t
    | PyVal.pnone, PyVal.pnone => true
    | _, _ => false

/-- Error outcomes of the embedded operations.  Each constructor stands for
the Python exception raised at the corresponding place. -/
inductive SErr
  | noSection (sec : String)
  | noOption (opt sec : String)
  | duplicateSection (sec : String)
  | valueErr
  | fallbackConflict (sec opt : String)
  | badDestination
  | noneMembership
  | interpSyntaxErr
  | interpMissingOpt
  | interpDepthErr
  | beforeSetErr
  | parseErr (s : String)
deriving DecidableEq, Repr

/-- Ordered option-name/value map of one section (Python dict of str → str). -/
abbrev OptMap := List (String × String)

/-- Ordered section map (Python `_sections`). -/
abbrev SectMap := List (String × OptMap)

/-- The raw `defaults` dict supplied at construction (values of any type). -/
abbrev PySectMap := List (String × List (String × PyVal))

/-- `optionxform`: configparser lower-cases option names. -/
def xform (s : String) : String := String.mk (s.data.map Char.toLower)

/-- Dict write `d[k] = v`: overwrite in place, else append (insertion order
of Python dicts). -/
def updOpts {α : Type} : List (String × α) → String → α → List (String × α)
  | [], k, v => [(k, v)]
  | (k1, v1) :: rest, k, v =>
    if k1 == k then (k, v) :: rest else (k1, v1) :: updOpts rest k v

/-- Dict delete `del d[k]` (first binding; dict keys are unique). -/
def removeKey {α : Type} : List (String × α) → String → List (String × α)
  | [], _ => []
  | (k1, v1) :: rest, k => if k1 == k then rest else (k1, v1) :: removeKey rest k

/-- `base.copy(); base.update(upd)`: sequence of dict writes. -/
def dictUpdate {α : Type} (base : List (String × α)) : List (String × α) → List (String × α)
  | [] => base
  | (k, v) :: rest => dictUpdate (updOpts base k v) rest

/-- Lookup in a two-level ledger (`self.original` / `self.fallback`). -/
def lookup2 {α : Type} (m : List (String × List (String × α))) (sec opt : String) : Option α :=
  match m.lookup sec with
  | some inner => inner.lookup opt
  | Option.none => Option.none

/-- Two-level ledger write `m[sec][opt] = v` (creating the inner dict). -/
def upd2 {α : Type} (m : List (String × List (String × α))) (sec opt : String) (v : α) :
    List (String × List (String × α)) :=
  match m.lookup sec with
  | some inner => updOpts m sec (updOpts inner opt v)
  | Option.none => m ++ [(sec, [(opt, v)])]

/-- Keys of an association list are pairwise distinct (true of every map
that mirrors a Python dict). -/
def nodupKeys {α : Type} : List (String × α) → Bool
  | [] => true
  | (k, _) :: rest => (!((rest.map Prod.fst).contains k)) && nodupKeys rest

/-- A string is free of `%`, hence inert under interpolation. -/
def noPct (t : String) : Bool := t.data.all (fun c => !(c == '%'))

/-- Match of `_KEYCRE` (regex `%\(([^)]+)\)s`) right after a consumed `%(`:
returns the reference name (nonempty, no `)`) and the remainder after `)s`. -/
def scanKey (cs : List Char) : Option (List Char × List Char) :=
  if (cs.takeWhile (fun c => !(c == ')'))).isEmpty then Option.none
  else
    match cs.dropWhile (fun c => !(c == ')')) with
    | ')' :: 's' :: rest2 => some (cs.takeWhile (fun c => !(c == ')')), rest2)
    | _ => Option.none

/-- One depth level of `BasicInterpolation._interpolate_some`: scan the
value, copy plain characters, turn `%%` into `%`, resolve `%(name)s`
references through `expand` (the interpreter for the next depth), and
reject any other `%`.  The scan consumes at least one character per step,
so the character fuel `n` (always called with `n ≥ length of the input`)
cannot run out before the input does; the `0, c :: rest` branch is
unreachable and returns an arbitrary error for definiteness. -/
def interpLoop (d : OptMap) (expand : List Char → Except SErr String) :
    Nat → List Char → Except SErr String
  | _, [] => Except.ok ""
  | 0, _ :: _ => Except.error SErr.interpSyntaxErr
  | n + 1, c :: rest =>
    if c = '%' then
      match rest with
      | [] => Except.error SErr.interpSyntaxErr
      | c2 :: rest2 =>
        if c2 = '%' then (interpLoop d expand n rest2).map (fun t => "%" ++ t)
        else if c2 = '(' then
          match scanKey rest2 with
          | Option.none => Except.error SErr.interpSyntaxErr
          | some (name, rest3) =>
            match d.lookup (xform (String.mk name)) with
            | Option.none => Except.error SErr.interpMissingOpt
            | some v =>
              match (if v.data.any (fun c1 => c1 == '%') then expand v.data
                     else Except.ok v) with
              | Except.error e => Except.error e
              | Except.ok ev => (interpLoop d expand n rest3).map (fun t => ev ++ t)
        else Except.error SErr.interpSyntaxErr
    else (interpLoop d expand n rest).map (fun t => String.singleton c ++ t)

/-- `BasicInterpolation._interpolate_some`: `fuel` counts the remaining
allowed nesting depth — the initial call has depth 1 and
`InterpolationDepthError` is raised once depth exceeds
`MAX_INTERPOLATION_DEPTH = 10`, so the initial fuel is 10.  `d` is the
unified option map the value is interpolated against. -/
def interpSome (d : OptMap) : Nat → List Char → Except SErr String
  | 0, _ => Except.error SErr.interpDepthErr
  | fuel + 1, cs => interpLoop d (fun v => interpSome d fuel v) cs.length cs

/-- `BasicInterpolation.before_get`. -/
def beforeGet (d : OptMap) (value : String) : Except SErr String :=
  interpSome d 10 value.data

/-- `value.replace('%%', '')` (left-to-right, non-overlapping). -/
def replacePP : List Char → List Char
  | [] => []
  | [c] => [c]
  | c1 :: c2 :: rest =>
    if c1 = '%' ∧ c2 = '%' then replacePP rest
    else c1 :: replacePP (c2 :: rest)

/-- `_KEYCRE.sub('', value)`: delete every `%(...)s` reference; on a failed
match at a `%` the scan advances by one character.  The fuel `n` is always
at least the length of the scanned input (each step consumes at least one
character), so the `0, c :: rest` branch is unreachable. -/
def keycreSubF : Nat → List Char → List Char
  | _, [] => []
  | 0, c :: rest => c :: rest
  | _ + 1, [c] => [c]
  | n + 1, c1 :: c2 :: rest =>
    if c1 = '%' ∧ c2 = '(' then
      match scanKey rest with
      | some (_, rest2) => keycreSubF n rest2
      | Option.none => '%' :: keycreSubF n ('(' :: rest)
    else c1 :: keycreSubF n (c2 :: rest)

def keycreSub (cs : List Char) : List Char := keycreSubF cs.length cs

/-- `BasicInterpolation.before_set`: reject a bare `%` that is neither `%%`
nor a `%(...)s` reference (ValueError "invalid interpolation syntax"). -/
def beforeSet (value : String) : Except SErr String :=
  if (keycreSub (replacePP value.data)).any (fun c => c == '%') then
    Except.error SErr.beforeSetErr
  else Except.ok value

/-- State of a `Settings` store.  `content` is `_sections`, `defaultsect` is
`_defaults` (the DEFAULT section), and the other fields are the subclass's
own attributes from `Settings.__init__`. -/
structure Settings where
  content : SectMap
  defaultsect : OptMap
  defaults : Option PySectMap
  original : SectMap
  fallback : List (String × List (String × PyVal))
  ignored_sections : List String
deriving DecidableEq, Repr

/-- `self.sections()`. -/
def Settings.sections (s : Settings) : List String := s.content.map Prod.fst

/-- `self.has_section(section)`. -/
def hasSection (s : Settings) (sec : String) : Bool :=
  (s.content.lookup sec).isSome

/-- `RawConfigParser.add_section`: ValueError on the DEFAULT name,
DuplicateSectionError on an existing one, else append an empty section. -/
def addSection (s : Settings) (sec : String) : Except SErr Settings :=
  if sec == "DEFAULT" then Except.error SErr.valueErr
  else if (s.content.map Prod.fst).contains sec then
    Except.error (SErr.duplicateSection sec)
  else Except.ok { s with content := s.content ++ [(sec, [])] }

/-- `RawConfigParser.remove_section` (write path checks existence first). -/
def removeSection (s : Settings) (sec : String) : Settings :=
  { s with content := removeKey s.content sec }

/-- `RawConfigParser.remove_option`: an empty or DEFAULT section name routes
to `_defaults`; a missing regular section raises NoSectionError. -/
def removeOption (s : Settings) (sec opt : String) : Except SErr Settings :=
  if sec == "" || sec == "DEFAULT" then
    Except.ok { s with defaultsect := removeKey s.defaultsect (xform opt) }
  else
    match s.content.lookup sec with
    | Option.none => Except.error (SErr.noSection sec)
    | some opts =>
      Except.ok { s with content := updOpts s.content sec (removeKey opts (xform opt)) }

/-- `RawConfigParser.set` (called by `Settings.set` as `super().set`): run
`before_set` on a non-empty value, then store under the transformed option
name; an empty or DEFAULT section name routes to `_defaults`. -/
def superSet (s : Settings) (sec opt value : String) : Except SErr Settings :=
  match (if value == "" then Except.ok value else beforeSet value) with
  | Except.error e => Except.error e
  | Except.ok v =>
    if sec == "" || sec == "DEFAULT" then
      Except.ok { s with defaultsect := updOpts s.defaultsect (xform opt) v }
    else
      match s.content.lookup sec with
      | Option.none => Except.error (SErr.noSection sec)
      | some opts =>
        Except.ok { s with content := updOpts s.content sec (updOpts opts (xform opt) v) }

/-- Lookup and interpolate one option in the unified map `d`
(`ConfigParser.get` after `_unify_values` succeeded). -/
def getFromMap (d : OptMap) (sec opt : String) (fallback : Option PyVal) (raw : Bool) :
    Except SErr PyVal :=
  match d.lookup (xform opt) with
  | Option.none =>
    match fallback with
    | Option.none => Except.error (SErr.noOption (xform opt) sec)
    | some fb => Except.ok fb
  | some v =>
    if raw then Except.ok (PyVal.pstr v)
    else
      match beforeGet d v with
      | Except.error e => Except.error e
      | Except.ok w => Except.ok (PyVal.pstr w)

/-- `ConfigParser.get(section, option, raw=raw, fallback=fallback)`:
`_unify_values` chains the section dict over `_defaults` (NoSectionError
for a missing non-DEFAULT section), then the option is looked up and the
value interpolated; a supplied fallback is returned unconverted. -/
def superGet (s : Settings) (sec opt : String) (fallback : Option PyVal) (raw : Bool) :
    Except SErr PyVal :=
  match s.content.lookup sec with
  | some opts => getFromMap (dictUpdate s.defaultsect opts) sec opt fallback raw
  | Option.none =>
    if sec == "DEFAULT" then getFromMap s.defaultsect sec opt fallback raw
    else
      match fallback with
      | Option.none => Except.error (SErr.noSection sec)
      | some fb => Except.ok fb

/-- `Settings.remember_fallback`: the `_UNSET` sentinel is never recorded;
the first non-sentinel fallback for a key is recorded; a later different
one raises ValueError. -/
def rememberFallback (s : Settings) (sec opt : String) :
    Option PyVal → Except SErr Settings
  | Option.none => Except.ok s
  | some fb =>
    match lookup2 s.fallback sec opt with
    | Option.none => Except.ok { s with fallback := upd2 s.fallback sec opt fb }
    | some recorded =>
      if pyEq recorded fb then Except.ok s
      else Except.error (SErr.fallbackConflict sec opt)

/-- `Settings.remember_original`: only a first capture stores
`super().get(section, option, fallback='')`. -/
def rememberOriginal (s : Settings) (sec opt : String) : Except SErr Settings :=
  match lookup2 s.original sec opt with
  | some _ => Except.ok s
  | Option.none =>
    match superGet s sec opt (some (PyVal.pstr "")) false with
    | Except.error e => Except.error e
    | Except.ok v => Except.ok { s with original := upd2 s.original sec opt (pyStr v) }

/-- `Settings.set`: create the section when missing, canonicalize the value
with `str`, remember the original on a temporary write, then store. -/
def Settings.set (s : Settings) (sec opt : String) (value : PyVal) (temporary : Bool) :
    Except SErr Settings :=
  match (if (s.content.map Prod.fst).contains sec then Except.ok s else addSection s sec) with
  | Except.error e => Except.error e
  | Except.ok s1 =>
    match (if temporary then rememberOriginal s1 sec opt else Except.ok s1) with
    | Except.error e => Except.error e
    | Except.ok s2 => superSet s2 sec opt (pyStr value)

/-- `Settings.getstr` (the repo's `get`-alias family): record the fallback,
then delegate to `ConfigParser.get`.  The pair returns the call's result
together with the store state afterwards (only the fallback ledger can
change; on a conflict nothing was written). -/
def Settings.getstr (s : Settings) (sec opt : String) (fallback : Option PyVal) (raw : Bool) :
    (Except SErr PyVal) × Settings :=
  match rememberFallback s sec opt fallback with
  | Except.error e => (Except.error e, s)
  | Except.ok s1 => (superGet s1 sec opt fallback raw, s1)

/-- Whitespace stripped by Python `int(str)`. -/
def isPySpace (c : Char) : Bool :=
  c == ' ' || c == '\t' || c == '\n' || c == '\r' || c == '\x0b' || c == '\x0c'

/-- Digit run with single underscores between digits (Python int literal
parsing inside `int()`). -/
def parseDigitsAux (acc : Nat) : List Char → Option Nat
  | [] => some acc
  | '_' :: c :: rest =>
    if c.isDigit then parseDigitsAux (acc * 10 + (c.toNat - 48)) rest else Option.none
  | c :: rest =>
    if c.isDigit then parseDigitsAux (acc * 10 + (c.toNat - 48)) rest else Option.none

def parseDigits : List Char → Option Nat
  | [] => Option.none
  | c :: rest =>
    if c.isDigit then parseDigitsAux (c.toNat - 48) rest else Option.none

/-- Python `int(value)` on a string: strip whitespace, optional sign,
decimal digits; ValueError otherwise. -/
def pythonInt (v : String) : Except SErr Int :=
  let cs := (v.data.dropWhile isPySpace).reverse.dropWhile isPySpace |>.reverse
  match cs with
  | '+' :: rest =>
    match parseDigits rest with
    | some n => Except.ok (Int.ofNat n)
    | Option.none => Except.error (SErr.parseErr v)
  | '-' :: rest =>
    match parseDigits rest with
    | some n => Except.ok (-(Int.ofNat n))
    | Option.none => Except.error (SErr.parseErr v)
  | rest =>
    match parseDigits rest with
    | some n => Except.ok (Int.ofNat n)
    | Option.none => Except.error (SErr.parseErr v)

/-- `Settings.getint`: record the fallback, then `_get_conv`: convert the
raw `get` (no inner fallback); NoSectionError/NoOptionError fall back to
the supplied fallback, returned unconverted; conversion errors propagate. -/
def Settings.getint (s : Settings) (sec opt : String) (fallback : Option PyVal) :
    (Except SErr PyVal) × Settings :=
  match rememberFallback s sec opt fallback with
  | Except.error e => (Except.error e, s)
  | Except.ok s1 =>
    let r :=
      match superGet s1 sec opt Option.none false with
      | Except.error (SErr.noSection n) =>
        (match fallback with
         | some fb => Except.ok fb
         | Option.none => Except.error (SErr.noSection n))
      | Except.error (SErr.noOption o n) =>
        (match fallback with
         | some fb => Except.ok fb
         | Option.none => Except.error (SErr.noOption o n))
      | Except.error e => Except.error e
      | Except.ok v =>
        (match pythonInt (pyStr v) with
         | Except.ok n => Except.ok (PyVal.pint n)
         | Except.error e => Except.error e)
    (r, s1)

/-- `self.items(section)`: `_defaults.copy()` updated by the section dict,
every value interpolated against that map (NoSectionError when the section
is missing and not DEFAULT). -/
def itemsInterp (d : OptMap) : OptMap → Except SErr OptMap
  | [] => Except.ok []
  | (k, v) :: rest =>
    match beforeGet d v with
    | Except.error e => Except.error e
    | Except.ok ev =>
      match itemsInterp d rest with
      | Except.error e => Except.error e
      | Except.ok tail => Except.ok ((k, ev) :: tail)

def itemsSec (s : Settings) (sec : String) : Except SErr OptMap :=
  match s.content.lookup sec with
  | some opts => itemsInterp (dictUpdate s.defaultsect opts) (dictUpdate s.defaultsect opts)
  | Option.none =>
    if sec == "DEFAULT" then itemsInterp s.defaultsect s.defaultsect
    else Except.error (SErr.noSection sec)

/-- `Settings.__str__`: concatenation of `'[sec]\n'` blocks with
`'  var = val\n'` lines from `self.items(sec)` over `self.sections()`. -/
def strLoop (s : Settings) : List String → Except SErr String
  | [] => Except.ok ""
  | sec :: rest =>
    match itemsSec s sec with
    | Except.error e => Except.error e
    | Except.ok its =>
      match strLoop s rest with
      | Except.error e => Except.error e
      | Except.ok tail =>
        Except.ok ("[" ++ sec ++ "]\n"
          ++ its.foldl (fun acc p => acc ++ "  " ++ p.1 ++ " = " ++ p.2 ++ "\n") ""
          ++ tail)

def Settings.toStr (s : Settings) : Except SErr String :=
  strLoop s (s.content.map Prod.fst)

/-- `read_dict` inner loop: keys are `optionxform(str(key))`, values are
`str(value)`, and each pair is stored through `self.set`. -/
def readDictOpts (s : Settings) (sec : String) : List (String × PyVal) → Except SErr Settings
  | [] => Except.ok s
  | (k, v) :: rest =>
    match Settings.set s sec (xform k) (PyVal.pstr (pyStr v)) false with
    | Except.error e => Except.error e
    | Except.ok s1 => readDictOpts s1 sec rest

/-- `read_dict` outer loop: `add_section` with DuplicateSectionError and
ValueError swallowed, then the options. -/
def readDictLoop (s : Settings) : PySectMap → Except SErr Settings
  | [] => Except.ok s
  | (sec, keys) :: rest =>
    let s1 :=
      match addSection s sec with
      | Except.ok t => t
      | Except.error _ => s
    match readDictOpts s1 sec keys with
    | Except.error e => Except.error e
    | Except.ok s2 => readDictLoop s2 rest

/-- `Settings.__init__(defaults, ignored_sections)`: `read_dict(defaults)`
only when `defaults` is truthy (neither None nor the empty dict); the raw
`defaults` object itself is kept in `self.defaults`. -/
def mkSettings (defaults : Option PySectMap) (ignored : List String) : Except SErr Settings :=
  let base : Settings :=
    { content := [], defaultsect := [], defaults := defaults, original := [],
      fallback := [], ignored_sections := ignored }
  match defaults with
  | Option.none => Except.ok base
  | some [] => Except.ok base
  | some ds => readDictLoop base ds

/-- `Settings()` with no arguments. -/
def emptySettings : Settings :=
  { content := [], defaultsect := [], defaults := Option.none, original := [],
    fallback := [], ignored_sections := [] }

/-- `self.options(section)`: section keys then the DEFAULT-section keys not
already present (dict copy updated by `_defaults`). -/
def optionsOf (s : Settings) (sec : String) : List String :=
  match s.content.lookup sec with
  | some opts => (dictUpdate opts s.defaultsect).map Prod.fst
  | Option.none => s.defaultsect.map Prod.fst

/-- `Settings.__copy__` option loop: `settings.set(section, option,
self.getstr(section, option))` (the source's ledgers are untouched: the
getter is called with the `_UNSET` fallback). -/
def copyOpts (src t : Settings) (sec : String) : List String → Except SErr Settings
  | [] => Except.ok t
  | opt :: rest =>
    match superGet src sec opt Option.none false with
    | Except.error e => Except.error e
    | Except.ok v =>
      match Settings.set t sec opt (PyVal.pstr (pyStr v)) false with
      | Except.error e => Except.error e
      | Except.ok t1 => copyOpts src t1 sec rest

def copyLoop (src : Settings) (t : Settings) : List String → Except SErr Settings
  | [] => Except.ok t
  | sec :: rest =>
    match copyOpts src t sec (optionsOf src sec) with
    | Except.error e => Except.error e
    | Except.ok t1 => copyLoop src t1 rest

/-- `Settings.__copy__` / `Settings.copy`: a fresh store from the same
`defaults` and `ignored_sections`, then every current option re-set from
`self.getstr` (the two `self.original = self.original` /
`self.fallback = self.fallback` lines of the source are no-ops and are not
modelled). -/
def Settings.copy (s : Settings) : Except SErr Settings :=
  match mkSettings s.defaults s.ignored_sections with
  | Except.error e => Except.error e
  | Except.ok t => copyLoop s t (s.content.map Prod.fst)

/-- Destination argument of `Settings.write`: a `str` path or anything
else (`isinstance(fp, str)` decides). -/
inductive Dest
  | path (p : String)
  | notStr
deriving DecidableEq, Repr

/-- `write`, temporary-rollback inner loop: for each remembered option,
stash `self.get(section, option)` (i.e. `ConfigParser.get`, since the
subclass defines no `get`) in `temporary_backup` and re-set the remembered
original value. -/
def rollbackInner (sec : String) (acc : OptMap) (s : Settings) :
    List (String × String) → (Except SErr OptMap) × Settings
  | [] => (Except.ok acc, s)
  | (opt, origval) :: rest =>
    match superGet s sec opt Option.none false with
    | Except.error e => (Except.error e, s)
    | Except.ok cur =>
      match Settings.set s sec opt (PyVal.pstr origval) false with
      | Except.error e => (Except.error e, s)
      | Except.ok s1 => rollbackInner sec (acc ++ [(opt, pyStr cur)]) s1 rest

/-- `write`, temporary-rollback outer loop over `self.original`. -/
def rollbackLoop (acc : SectMap) (s : Settings) : SectMap → (Except SErr SectMap) × Settings
  | [] => (Except.ok acc, s)
  | (sec, opts) :: rest =>
    match rollbackInner sec [] s opts with
    | (Except.error e, s1) => (Except.error e, s1)
    | (Except.ok inner, s1) => rollbackLoop (acc ++ [(sec, inner)]) s1 rest

/-- `write`, ignored-section removal: stash `self.items(section)` and
remove each ignored section that exists. -/
def removeIgnored (acc : SectMap) (s : Settings) : List String → (Except SErr SectMap) × Settings
  | [] => (Except.ok acc, s)
  | sec :: rest =>
    if hasSection s sec then
      match itemsSec s sec with
      | Except.error e => (Except.error e, s)
      | Except.ok its => removeIgnored (acc ++ [(sec, its)]) (removeSection s sec) rest
    else removeIgnored acc s rest

/-- `write`, default-suppression inner loop over an `items(section)`
snapshot: remove every option whose interpolated value equals
`str(self.defaults[section][option])`. -/
def suppressOpts (s : Settings) (sec : String) (dsec : List (String × PyVal)) :
    OptMap → (Except SErr Unit) × Settings
  | [] => (Except.ok (), s)
  | (opt, value) :: rest =>
    match dsec.lookup opt with
    | some dv =>
      if value == pyStr dv then
        match removeOption s sec opt with
        | Except.error e => (Except.error e, s)
        | Except.ok s1 => suppressOpts s1 sec dsec rest
      else suppressOpts s sec dsec rest
    | Option.none => suppressOpts s sec dsec rest

/-- `write`, default-suppression outer loop over a `self.sections()`
snapshot.  `section in self.defaults` raises TypeError when `self.defaults`
is None; a section emptied by the removals is removed
(`len(self.items(section)) == 0`). -/
def suppressLoop (s : Settings) : List String → (Except SErr Unit) × Settings
  | [] => (Except.ok (), s)
  | sec :: rest =>
    match s.defaults with
    | Option.none => (Except.error SErr.noneMembership, s)
    | some ds =>
      match ds.lookup sec with
      | Option.none => suppressLoop s rest
      | some dsec =>
        match itemsSec s sec with
        | Except.error e => (Except.error e, s)
        | Except.ok its =>
          match suppressOpts s sec dsec its with
          | (Except.error e, s1) => (Except.error e, s1)
          | (Except.ok _, s1) =>
            match itemsSec s1 sec with
            | Except.error e => (Except.error e, s1)
            | Except.ok its2 =>
              suppressLoop (if its2.length == 0 then removeSection s1 sec else s1) rest

/-- The three filtering steps of `Settings.write` that run before the
destination is touched; the payload is `(backup, temporary_backup)`. -/
def writePrep (s : Settings) (skip_defaults skip_tamporary : Bool) :
    (Except SErr (SectMap × SectMap)) × Settings :=
  match (if skip_tamporary then rollbackLoop [] s s.original else (Except.ok [], s)) with
  | (Except.error e, s1) => (Except.error e, s1)
  | (Except.ok tb, s1) =>
    match removeIgnored [] s1 s1.ignored_sections with
    | (Except.error e, s2) => (Except.error e, s2)
    | (Except.ok backup, s2) =>
      if skip_defaults then
        match suppressLoop s2 (s2.content.map Prod.fst) with
        | (Except.error e, s3) => (Except.error e, s3)
        | (Except.ok _, s3) => (Except.ok (backup, tb), s3)
      else (Except.ok (backup, tb), s2)

/-- `write`, restore of the removed ignored sections: unconditional
`add_section`, then plain `self.set` of each stashed pair. -/
def restoreOpts (s : Settings) (sec : String) : OptMap → (Except SErr Unit) × Settings
  | [] => (Except.ok (), s)
  | (opt, v) :: rest =>
    match Settings.set s sec opt (PyVal.pstr v) false with
    | Except.error e => (Except.error e, s)
    | Except.ok s1 => restoreOpts s1 sec rest

def restoreBackup (s : Settings) : SectMap → (Except SErr Unit) × Settings
  | [] => (Except.ok (), s)
  | (sec, its) :: rest =>
    match addSection s sec with
    | Except.error e => (Except.error e, s)
    | Except.ok s1 =>
      match restoreOpts s1 sec its with
      | (Except.error e, s2) => (Except.error e, s2)
      | (Except.ok _, s2) => restoreBackup s2 rest

/-- `write`, restore of the temporary values: re-add the section when
needed and `self.set(..., temporary=True)` each stashed pair. -/
def restoreTempOpts (s : Settings) (sec : String) : OptMap → (Except SErr Unit) × Settings
  | [] => (Except.ok (), s)
  | (opt, v) :: rest =>
    match Settings.set s sec opt (PyVal.pstr v) true with
    | Except.error e => (Except.error e, s)
    | Except.ok s1 => restoreTempOpts s1 sec rest

def restoreTemps (s : Settings) : SectMap → (Except SErr Unit) × Settings
  | [] => (Except.ok (), s)
  | (sec, its) :: rest =>
    match (if (s.content.map Prod.fst).contains sec then Except.ok s else addSection s sec) with
    | Except.error e => (Except.error e, s)
    | Except.ok s1 =>
      match restoreTempOpts s1 sec its with
      | (Except.error e, s2) => (Except.error e, s2)
      | (Except.ok _, s2) => restoreTemps s2 rest

/-- The file content handed to `RawConfigParser.write`: the DEFAULT section
first when non-empty, then `_sections` in order (`before_write` is the
identity). -/
def artifact (s : Settings) : SectMap :=
  (if s.defaultsect.isEmpty then [] else [("DEFAULT", s.defaultsect)]) ++ s.content

/-- `Settings.write(fp, ...)`: filtering steps, then the
`isinstance(fp, str)` check — ValueError on a non-string destination, with
no rollback on that path — then serialization and the two restore loops.
The pair carries the store state alongside the result, since the mutations
survive an early exception. -/
def Settings.write (s : Settings) (fp : Dest) (skip_defaults skip_tamporary : Bool) :
    (Except SErr SectMap) × Settings :=
  match writePrep s skip_defaults skip_tamporary with
  | (Except.error e, s1) => (Except.error e, s1)
  | (Except.ok (backup, tb), s1) =>
    match fp with
    | Dest.notStr => (Except.error SErr.badDestination, s1)
    | Dest.path _ =>
      let art := artifact s1
      match restoreBackup s1 backup with
      | (Except.error e, s2) => (Except.error e, s2)
      | (Except.ok _, s2) =>
        match restoreTemps s2 tb with
        | (Except.error e, s3) => (Except.error e, s3)
        | (Except.ok _, s3) => (Except.ok art, s3)

/-- Raw store of one parsed option (`_read` writes straight into the
section dict with the transformed key; no interpolation at read time). -/
def setRaw (c : SectMap) (sec o v : String) : SectMap :=
  match c.lookup sec with
  | some opts => updOpts c sec (updOpts opts o v)
  | Option.none => c ++ [(sec, [(o, v)])]

/-- Modelled from the configparser library: `ConfigParser.read` of the INI
text that `write` produced, represented on the structured section data the
file holds (for the simple keys and values at issue the INI text
round-trips identically; option keys pass through `optionxform`, DEFAULT
section lines go to `_defaults`). -/
def readSection (s : Settings) (sec : String) (opts : OptMap) : Settings :=
  if sec == "DEFAULT" then
    { s with defaultsect := opts.foldl (fun d q => updOpts d (xform q.1) q.2) s.defaultsect }
  else
    let base :=
      match s.content.lookup sec with
      | some _ => s
      | Option.none => { s with content := s.content ++ [(sec, [])] }
    { base with content := opts.foldl (fun c q => setRaw c sec (xform q.1) q.2) base.content }

def readData (s : Settings) (data : SectMap) : Settings :=
  data.foldl (fun t p => readSection t p.1 p.2) s

/-- The section-creation guard at the top of `Settings.set` (successful
outcome): the store with `sec` present. -/
def guardAdd (s : Settings) (sec : String) : Settings :=
  if (s.content.map Prod.fst).contains sec then s
  else { s with content := s.content ++ [(sec, [])] }

/-- The option is visible to `super().get(section, option, ...)` at the
point where `remember_original` reads it (section guard already run;
DEFAULT-section inheritance included). -/
def optExists (s : Settings) (sec opt : String) : Bool :=
  match (guardAdd s sec).content.lookup sec with
  | some opts => ((dictUpdate s.defaultsect opts).lookup (xform opt)).isSome
  | Option.none => false

/-- The section's option dict (when present) has pairwise-distinct keys —
true of every store state that mirrors a Python dict. -/
def sectNodup (s : Settings) (sec : String) : Bool :=
  nodupKeys ((s.content.lookup sec).getD [])

/-- The (section, option) key is absent for `ConfigParser.get`: missing
section, or option not found in the section dict chained over
`_defaults`. -/
def keyMissing (s : Settings) (sec opt : String) : Bool :=
  match s.content.lookup sec with
  | some opts => ((dictUpdate s.defaultsect opts).lookup (xform opt)).isNone
  | Option.none =>
    if sec == "DEFAULT" then (s.defaultsect.lookup (xform opt)).isNone else true

/-- The `defaults` dict of the unit-test scenario (`test_write`). -/
def c4defaults : PySectMap :=
  [("test", [("a", PyVal.pstr "b")]), ("nothing", [("a", PyVal.pstr "b")])]

/-- The store of the `test_write` scenario right before `write`. -/
def c4store : Except SErr Settings := do
  let s0 ← mkSettings (some c4defaults) ["anothertest"]
  let s1 ← Settings.set s0 "anothertest" "b" (PyVal.pstr "bar") false
  let s2 ← Settings.set s1 "test" "b" (PyVal.pstr "c") false
  let s3 ← Settings.set s2 "test" "b" (PyVal.pstr "foo") true
  Settings.set s3 "test" "b" (PyVal.pstr "bar") true

/-- The state `c4store` evaluates to. -/
def c4val : Settings :=
  { content := [("test", [("a", "b"), ("b", "bar")]), ("nothing", [("a", "b")]),
      ("anothertest", [("b", "bar")])],
    defaultsect := [], defaults := some c4defaults,
    original := [("test", [("b", "c")])], fallback := [],
    ignored_sections := ["anothertest"] }

/-- Full `test_write` pipeline: build the store, write, reload the written
data into a fresh `Settings()`, and perform the three reads of the test
(`t.get` is `ConfigParser.get`, the subclass defines no `get`). -/
def c4result : Except SErr (SectMap × PyVal × PyVal × PyVal) := do
  let s4 ← c4store
  let wr := Settings.write s4 (Dest.path "config") true true
  let art ← wr.1
  let t0 ← mkSettings Option.none []
  let t := readData t0 art
  let r1 ← superGet t "test" "b" Option.none false
  let r2 ← superGet t "anothertest" "b" (some (PyVal.pstr "fallback")) false
  let r3 ← superGet t "test" "a" (some (PyVal.pstr "fallback")) false
  Except.ok (art, r1, r2, r3)

/-- A store holding exactly its defaults (reachable by constructing with
those defaults, or from that store by a successful `write`, which strips
the default-equal option and the emptied section without restoring them). -/
def c2ex : Settings :=
  { content := [("test", [("a", "b")])], defaultsect := [],
    defaults := some [("test", [("a", PyVal.pstr "b")])], original := [],
    fallback := [], ignored_sections := [] }

/-- `c2ex` after the filtering steps of `write` (default-equal option
suppressed, emptied section removed). -/
def c2mut : Settings :=
  { content := [], defaultsect := [],
    defaults := some [("test", [("a", PyVal.pstr "b")])], original := [],
    fallback := [], ignored_sections := [] }

/-- A store with one section, constructed without a defaults mapping. -/
def c3ex : Settings :=
  { content := [("s", [("a", "v")])], defaultsect := [], defaults := Option.none,
    original := [], fallback := [], ignored_sections := [] }

/-- A store constructed without a defaults mapping whose only section is an
ignored one (`Settings(ignored_sections=['s'])` then `set('s','a','v')`):
the ignored-removal step of `write` empties the section list before the
default-suppression loop runs, so the membership test on None is never
reached. -/
def c3cex : Settings :=
  { content := [("s", [("a", "v")])], defaultsect := [], defaults := Option.none,
    original := [], fallback := [], ignored_sections := ["s"] }

/-- A defaults-only store whose content was emptied (e.g. by a prior
`write`): its `copy` re-reads the defaults and no longer matches. -/
def c7ex : Settings :=
  { content := [], defaultsect := [],
    defaults := some [("test", [("a", PyVal.pstr "b")])], original := [],
    fallback := [], ignored_sections := [] }

/-- What `c7ex.copy()` evaluates to. -/
def c7copy : Settings :=
  { content := [("test", [("a", "b")])], defaultsect := [],
    defaults := some [("test", [("a", PyVal.pstr "b")])], original := [],
    fallback := [], ignored_sections := [] }

/-- Store after `set('t', 'a', '%%')`. -/
def c8state : Settings :=
  { content := [("t", [("a", "%%")])], defaultsect := [], defaults := Option.none,
    original := [], fallback := [], ignored_sections := [] }

/-- Store after `set('s', '', 'v')`: the empty option name is stored. -/
def c10state : Settings :=
  { content := [("s", [("", "v")])], defaultsect := [], defaults := Option.none,
    original := [], fallback := [], ignored_sections := [] }

/-- Replay of `(section, option, value)` triples over a base content by
plain dict writes — what `__copy__`'s re-set loop amounts to once
interpolation is inert. -/
def replayItems (base : SectMap) (items : SectMap) : SectMap :=
  items.foldl (fun c p => p.2.foldl (fun c2 q => setRaw c2 p.1 q.1 q.2) c) base

/-- A store with defaults `{"test": {"a": "b"}}` after
`set('test', 'b', 'c')` and `set('extra', 'x', 'y')`: its content still
contains the defaults, so its copy is faithful. -/
def c7s : Settings :=
  { content := [("test", [("a", "b"), ("b", "c")]), ("extra", [("x", "y")])],
    defaultsect := [], defaults := some [("test", [("a", PyVal.pstr "b")])],
    original := [], fallback := [], ignored_sections := [] }

/-- The content `mkSettings c7s.defaults []` produces. -/
def c7t0 : Settings :=
  { content := [("test", [("a", "b")])], defaultsect := [],
    defaults := some [("test", [("a", PyVal.pstr "b")])], original := [],
    fallback := [], ignored_sections := [] }

instance {ε α : Type} [DecidableEq ε] [DecidableEq α] : DecidableEq (Except ε α) := fun a b =>
  match a, b with
  | Except.ok x, Except.ok y =>
    if h : x = y then Decidable.isTrue (by rw [h])
    else Decidable.isFalse (fun hh => h (Except.ok.inj hh))
  | Except.error x, Except.error y =>
    if h : x = y then Decidable.isTrue (by rw [h])
    else Decidable.isFalse (fun hh => h (Except.error.inj hh))
  | Except.ok _, Except.error _ => Decidable.isFalse (fun hh => Except.noConfusion hh)
  | Except.error _, Except.ok _ => Decidable.isFalse (fun hh => Except.noConfusion hh)

theorem pyEq_refl (f : PyVal) : pyEq f f = true := by
  cases f <;> simp [pyEq, pyNum]

theorem lookup_updOpts_self {α : Type} (l : List (String × α)) (k : String) (v : α) :
    (updOpts l k v).lookup k = some v := by
  induction l with
  | nil => simp [updOpts, List.lookup]
  | cons p rest ih =>
    obtain ⟨k1, v1⟩ := p
    by_cases h : k1 = k
    · simp [updOpts, h, List.lookup]
    · simp only [updOpts, beq_iff_eq, h, if_false]
      rw [List.lookup_cons]
      have : (k == k1) = false := by
        simp [beq_iff_eq]
        exact fun hh => h hh.symm
      simp [this, ih]

theorem lookup_updOpts_ne {α : Type} (l : List (String × α)) (k k1 : String) (v : α)
    (h : ¬k = k1) : (updOpts l k1 v).lookup k = l.lookup k := by
  have hkk : (k == k1) = false := beq_eq_false_iff_ne.mpr h
  induction l with
  | nil =>
    simp only [updOpts]
    rw [List.lookup_cons]
    simp [hkk, List.lookup]
  | cons p rest ih =>
    obtain ⟨k2, v2⟩ := p
    by_cases h2 : k2 = k1
    · simp only [updOpts, beq_iff_eq, h2, if_true]
      rw [List.lookup_cons, List.lookup_cons]
      subst h2
      simp [hkk]
    · simp only [updOpts, beq_iff_eq, h2, if_false]
      rw [List.lookup_cons, List.lookup_cons]
      cases h3 : (k == k2) with
      | true => simp
      | false => simp only []; exact ih

theorem contains_eq_lookup_isSome {α : Type} (l : List (String × α)) (k : String) :
    (l.map Prod.fst).contains k = (l.lookup k).isSome := by
  induction l with
  | nil => simp [List.lookup]
  | cons p rest ih =>
    obtain ⟨k1, v1⟩ := p
    rw [List.lookup_cons]
    by_cases h : k = k1
    · simp [h, List.contains_cons]
    · have : (k == k1) = false := beq_eq_false_iff_ne.mpr h
      simp only [List.map_cons, List.contains_cons, this, Bool.false_or]
      simpa using ih

theorem lookup_append_single {α : Type} (l : List (String × α)) (k : String) (x : α)
    (h : l.lookup k = Option.none) : (l ++ [(k, x)]).lookup k = some x := by
  induction l with
  | nil => simp [List.lookup]
  | cons p rest ih =>
    obtain ⟨k1, v1⟩ := p
    rw [List.lookup_cons] at h
    rw [List.cons_append, List.lookup_cons]
    cases hk : (k == k1) with
    | true => rw [hk] at h; simp at h
    | false => rw [hk] at h; simp only []; exact ih h

theorem lookup2_upd2_self {α : Type} (m : List (String × List (String × α)))
    (sec opt : String) (v : α) : lookup2 (upd2 m sec opt v) sec opt = some v := by
  unfold upd2
  cases hm : m.lookup sec with
  | some inner =>
    unfold lookup2
    rw [lookup_updOpts_self]
    exact lookup_updOpts_self inner opt v
  | none =>
    unfold lookup2
    rw [lookup_append_single m sec _ hm]
    exact lookup_updOpts_self [] opt v

theorem nodup_updOpts {α : Type} (l : List (String × α)) (k : String) (v : α)
    (h : nodupKeys l = true) : nodupKeys (updOpts l k v) = true := by
  induction l with
  | nil =>
    simp [updOpts, nodupKeys]
  | cons p rest ih =>
    obtain ⟨k1, v1⟩ := p
    simp only [nodupKeys, Bool.and_eq_true] at h
    by_cases hk : k1 = k
    · subst hk
      simp only [updOpts, beq_self_eq_true, if_true, nodupKeys, Bool.and_eq_true]
      exact h
    · simp only [updOpts, beq_iff_eq, hk, if_false, nodupKeys, Bool.and_eq_true]
      refine ⟨?_, ih h.2⟩
      have heq : ((updOpts rest k v).map Prod.fst).contains k1
          = (rest.map Prod.fst).contains k1 := by
        rw [contains_eq_lookup_isSome, contains_eq_lookup_isSome,
          lookup_updOpts_ne rest k1 k v hk]
      rw [heq]
      exact h.1

theorem lookup_dictUpdate_none {α : Type} (u base : List (String × α)) (k : String)
    (h : u.lookup k = Option.none) : (dictUpdate base u).lookup k = base.lookup k := by
  induction u generalizing base with
  | nil => simp [dictUpdate]
  | cons p rest ih =>
    obtain ⟨k1, v1⟩ := p
    rw [List.lookup_cons] at h
    cases hk : (k == k1) with
    | true => rw [hk] at h; simp at h
    | false =>
      rw [hk] at h
      simp only [] at h
      show (dictUpdate (updOpts base k1 v1) rest).lookup k = base.lookup k
      rw [ih _ h]
      exact lookup_updOpts_ne base k k1 v1 (by simpa [beq_iff_eq] using hk)

theorem lookup_dictUpdate_some {α : Type} (u base : List (String × α)) (k : String) (v : α)
    (hnd : nodupKeys u = true) (h : u.lookup k = some v) :
    (dictUpdate base u).lookup k = some v := by
  induction u generalizing base with
  | nil => simp [List.lookup] at h
  | cons p rest ih =>
    obtain ⟨k1, v1⟩ := p
    simp only [nodupKeys, Bool.and_eq_true] at hnd
    rw [List.lookup_cons] at h
    cases hk : (k == k1) with
    | true =>
      rw [hk] at h
      simp only [Option.some.injEq] at h
      subst h
      have hkeq : k = k1 := by simpa [beq_iff_eq] using hk
      subst hkeq
      have hrest : rest.lookup k = Option.none := by
        have := hnd.1
        rw [contains_eq_lookup_isSome] at this
        cases hr : rest.lookup k with
        | none => rfl
        | some w => rw [hr] at this; simp at this
      show (dictUpdate (updOpts base k v1) rest).lookup k = some v1
      rw [lookup_dictUpdate_none rest _ k hrest]
      exact lookup_updOpts_self base k v1
    | false =>
      rw [hk] at h
      simp only [] at h
      exact ih (updOpts base k1 v1) hnd.2 h

theorem replacePP_of_noPct (cs : List Char) (h : ∀ c ∈ cs, ¬c = '%') :
    replacePP cs = cs := by
  induction cs with
  | nil => rfl
  | cons c rest ih =>
    cases rest with
    | nil => rfl
    | cons c2 rest2 =>
      have hc : ¬c = '%' := h c (by simp)
      have ih2 := ih (fun x hx => h x (by simp [hx]))
      simp only [replacePP]
      rw [if_neg (fun hh => hc hh.1)]
      rw [ih2]

theorem keycreSubF_of_noPct (n : Nat) (cs : List Char) (hn : cs.length ≤ n)
    (h : ∀ c ∈ cs, ¬c = '%') : keycreSubF n cs = cs := by
  induction n generalizing cs with
  | zero =>
    cases cs with
    | nil => rfl
    | cons c rest => simp at hn
  | succ n ih =>
    cases cs with
    | nil => rfl
    | cons c rest =>
      cases rest with
      | nil => rfl
      | cons c2 rest2 =>
        have hc : ¬c = '%' := h c (by simp)
        simp only [keycreSubF]
        rw [if_neg (fun hh => hc hh.1)]
        rw [ih (c2 :: rest2) (by simp only [List.length_cons] at hn ⊢; omega)
          (fun x hx => h x (by simp [hx]))]

theorem keycreSub_of_noPct (cs : List Char) (h : ∀ c ∈ cs, ¬c = '%') :
    keycreSub cs = cs := keycreSubF_of_noPct cs.length cs (le_refl _) h

theorem beforeSet_of_noPct (v : String) (h : noPct v = true) :
    beforeSet v = Except.ok v := by
  have hall : ∀ c ∈ v.data, ¬c = '%' := by
    intro c hc
    have := List.all_eq_true.mp h c hc
    simpa using this
  have hany : (v.data.any (fun c => c == '%')) = false := by
    cases ha : v.data.any (fun c => c == '%') with
    | false => rfl
    | true =>
      obtain ⟨c, hc, hcp⟩ := List.any_eq_true.mp ha
      exact absurd (by simpa using hcp) (hall c hc)
  unfold beforeSet
  rw [replacePP_of_noPct _ hall, keycreSub_of_noPct _ hall, hany]
  simp

theorem interpLoop_of_noPct (d : OptMap) (expand : List Char → Except SErr String)
    (n : Nat) (cs : List Char) (hn : cs.length ≤ n) (h : ∀ c ∈ cs, ¬c = '%') :
    interpLoop d expand n cs = Except.ok (String.mk cs) := by
  induction n generalizing cs with
  | zero =>
    cases cs with
    | nil => rfl
    | cons c rest => simp at hn
  | succ n ih =>
    cases cs with
    | nil => rfl
    | cons c rest =>
      have hc : ¬c = '%' := h c (by simp)
      simp only [interpLoop]
      rw [if_neg hc]
      rw [ih rest (by simp only [List.length_cons] at hn ⊢; omega)
        (fun x hx => h x (by simp [hx]))]
      rfl

theorem interpSome_of_noPct (d : OptMap) (fuel : Nat) (cs : List Char)
    (h : ∀ c ∈ cs, ¬c = '%') :
    interpSome d (fuel + 1) cs = Except.ok (String.mk cs) := by
  simp only [interpSome]
  exact interpLoop_of_noPct d _ cs.length cs (le_refl _) h

theorem beforeGet_of_noPct (d : OptMap) (v : String) (h : noPct v = true) :
    beforeGet d v = Except.ok v := by
  have hall : ∀ c ∈ v.data, ¬c = '%' := by
    intro c hc
    have := List.all_eq_true.mp h c hc
    simpa using this
  unfold beforeGet
  rw [show (10 : Nat) = 9 + 1 from rfl, interpSome_of_noPct d 9 v.data hall]

/-- C1: the claim says that after `write` returns (success or failure) the
in-memory section/option/value content is exactly as before the call, with
suppressed default-equal options and removed sections present again.  The
code violates this: on the unit-test store `c4val`, a successful `write`
removes the default-equal option `('test', 'a')` and the emptied section
`'nothing'` from memory and never restores them — only ignored sections
and temporary values are backed up and restored. -/
theorem write_erases_suppressed_defaults :
    c4store = Except.ok c4val ∧
    (Settings.write c4val (Dest.path "config") true true).1
      = Except.ok [("test", [("b", "c")])] ∧
    (Settings.write c4val (Dest.path "config") true true).2.content
      = [("test", [("b", "bar")]), ("anothertest", [("b", "bar")])] ∧
    c4val.content
      = [("test", [("a", "b"), ("b", "bar")]), ("nothing", [("a", "b")]),
         ("anothertest", [("b", "bar")])] ∧
    (Settings.write c4val (Dest.path "config") true true).2.content ≠ c4val.content := by
  refine ⟨rfl, rfl, rfl, rfl, ?_⟩
  decide

/-- C4: end-to-end: the store built with defaults
`{"test": {"a": "b"}, "nothing": {"a": "b"}}` and ignored sections
`["anothertest"]`, after the four `set` calls of the scenario and
`write(path)`, produces a file holding exactly `[test] b = c`; a fresh
store reading it yields `get("test","b") = "c"`,
`get("anothertest","b", fallback="fallback") = "fallback"` and
`get("test","a", fallback="fallback") = "fallback"`. -/
theorem write_end_to_end :
    c4result = Except.ok ([("test", [("b", "c")])],
      PyVal.pstr "c", PyVal.pstr "fallback", PyVal.pstr "fallback") := rfl

/-- C2 counterexample: `write` to a non-string destination raises the
bad-destination ValueError, but only after the filtering steps have
mutated the store, and nothing is rolled back: the store `c2ex` is left as
`c2mut`, its default-equal option and emptied section gone — contradicting
"without having mutated the in-memory store". -/
theorem write_bad_destination_mutates_cex :
    Settings.write c2ex Dest.notStr true true = (Except.error SErr.badDestination, c2mut) ∧
    c2mut ≠ c2ex ∧ c2mut.content = [] ∧ c2ex.content = [("test", [("a", "b")])] := by
  refine ⟨rfl, ?_, rfl, rfl⟩
  decide

/-- C2 (amended): a non-string destination makes `write` signal the
bad-destination error, but the `isinstance(fp, str)` check runs only after
the three filtering steps: whenever those steps succeed, the error is
raised with the store left in the filtered (mutated) state and no rollback
happens. -/
theorem write_bad_destination_after_filtering (s s1 : Settings) (sd st : Bool)
    (backup tb : SectMap)
    (h : writePrep s sd st = (Except.ok (backup, tb), s1)) :
    Settings.write s Dest.notStr sd st = (Except.error SErr.badDestination, s1) := by
  unfold Settings.write
  rw [h]

theorem write_bad_destination_after_filtering_witness :
    writePrep c2ex true true = (Except.ok ([], []), c2mut) ∧
    Settings.write c2ex Dest.notStr true true = (Except.error SErr.badDestination, c2mut) :=
  ⟨rfl, write_bad_destination_after_filtering c2ex c2mut true true [] [] rfl⟩

/-- C3 counterexample: the claim quantifies over every store constructed
without a defaults mapping that contains at least one section, but for the
store `c3cex` — constructed with `defaults` None and one section, that
section being ignored — `write(path)` raises no error at all: the
ignored-removal step empties `self.sections()` before the
`section in self.defaults` loop runs, the membership test on None never
fires, and the call succeeds, serializing an empty file and restoring the
store. -/
theorem write_none_defaults_ignored_cex :
    c3cex.defaults = Option.none ∧
    c3cex.content = [("s", [("a", "v")])] ∧
    Settings.write c3cex (Dest.path "p") true true = (Except.ok [], c3cex) := by
  refine ⟨rfl, rfl, rfl⟩

/-- C3 (amended): a store whose `defaults` attribute is None (constructed
with the defaults argument omitted or None), with at least one section,
none of its sections ignored and no pending temporary bookkeeping, makes
`write` with the default `skip_defaults=True` raise the TypeError from the
membership test `section in self.defaults` on None, before anything is
serialized and regardless of the destination, leaving the store unchanged;
persistence is unusable for such a store.  (When every section is ignored,
the default-suppression loop has nothing to iterate and `write` succeeds —
see the counterexample.) -/
theorem write_none_defaults_type_error (s : Settings) (fp : Dest) (st : Bool)
    (hd : s.defaults = Option.none) (ho : s.original = [])
    (hi : s.ignored_sections = []) (hc : s.content ≠ []) :
    Settings.write s fp true st = (Except.error SErr.noneMembership, s) := by
  cases hcc : s.content with
  | nil => exact absurd hcc hc
  | cons p rest =>
    obtain ⟨sec, opts⟩ := p
    have hsup : suppressLoop s (List.map Prod.fst s.content)
        = (Except.error SErr.noneMembership, s) := by
      rw [hcc]
      simp only [List.map_cons, suppressLoop, hd]
    have hprep : writePrep s true st = (Except.error SErr.noneMembership, s) := by
      unfold writePrep
      have h1 : (if st = true then rollbackLoop [] s s.original
            else ((Except.ok [] : Except SErr SectMap), s))
          = (Except.ok [], s) := by
        rw [ho]
        cases st <;> rfl
      rw [h1]
      simp only [hi, removeIgnored, if_true, hsup]
    unfold Settings.write
    rw [hprep]

theorem write_none_defaults_type_error_witness :
    c3ex.defaults = Option.none ∧ c3ex.content ≠ [] ∧
    Settings.write c3ex (Dest.path "p") true true
      = (Except.error SErr.noneMembership, c3ex) :=
  ⟨rfl, by decide,
    write_none_defaults_type_error c3ex (Dest.path "p") true rfl rfl rfl (by decide)⟩

/-- C7 counterexample: for the store `c7ex` (constructed with defaults and
emptied in memory, as a prior successful `write` leaves it), `copy()`
succeeds but re-reads the defaults, so the copy serializes to
`[test]\n  a = b\n` while the source serializes to the empty string:
`copy` does not serialize identically for every store. -/
theorem copy_not_str_identical_cex :
    Settings.copy c7ex = Except.ok c7copy ∧
    Settings.toStr c7copy = Except.ok "[test]\n  a = b\n" ∧
    Settings.toStr c7ex = Except.ok "" ∧
    Settings.toStr c7copy ≠ Settings.toStr c7ex := by
  refine ⟨rfl, rfl, rfl, ?_⟩
  decide

/-- C8 counterexample: `set('t', 'a', '%%')` stores the two-character
string `%%` unchanged (its canonical string form), but `get_string`
interpolates on read and returns the single character `%`: set followed by
get_string does not return the canonical string form for every value. -/
theorem set_get_not_canonical_cex :
    Settings.set emptySettings "t" "a" (PyVal.pstr "%%") false = Except.ok c8state ∧
    c8state.content = [("t", [("a", "%%")])] ∧
    (Settings.getstr c8state "t" "a" Option.none false).1 = Except.ok (PyVal.pstr "%") ∧
    PyVal.pstr "%" ≠ PyVal.pstr (pyStr (PyVal.pstr "%%")) := by
  refine ⟨rfl, rfl, rfl, ?_⟩
  decide

/-- C10 counterexample: `set` performs no emptiness validation — with an
empty option name it signals no error and stores the value under the empty
name, contradicting the claim that it must reject empty names. -/
theorem set_accepts_empty_option_cex :
    Settings.set emptySettings "s" "" (PyVal.pstr "v") false = Except.ok c10state ∧
    c10state.content = [("s", [("", "v")])] := ⟨rfl, rfl⟩

/-- C5: for a (section, option) with no recorded fallback, a getter call
with a non-sentinel fallback records it, and a second call with a
different non-sentinel fallback raises the fallback-conflict ValueError —
a hard error, with the store left unchanged — regardless of whether the
key exists in the store content.  The unset sentinel is never recorded (a
sentinel call leaves the store untouched), and a repeat call with an equal
fallback passes the ledger check and proceeds to the normal lookup. -/
theorem getter_fallback_conflict (s : Settings) (sec opt : String) (f1 f2 : PyVal)
    (h : lookup2 s.fallback sec opt = Option.none) (hne : pyEq f1 f2 = false) :
    (Settings.getstr s sec opt (some f1) false).2
      = { s with fallback := upd2 s.fallback sec opt f1 } ∧
    (Settings.getstr ((Settings.getstr s sec opt (some f1) false).2) sec opt (some f2) false).1
      = Except.error (SErr.fallbackConflict sec opt) ∧
    (Settings.getstr ((Settings.getstr s sec opt (some f1) false).2) sec opt (some f2) false).2
      = (Settings.getstr s sec opt (some f1) false).2 ∧
    (Settings.getstr s sec opt Option.none false).2 = s ∧
    rememberFallback ((Settings.getstr s sec opt (some f1) false).2) sec opt (some f1)
      = Except.ok ((Settings.getstr s sec opt (some f1) false).2) ∧
    (Settings.getstr ((Settings.getstr s sec opt (some f1) false).2) sec opt (some f1) false).1
      = superGet ((Settings.getstr s sec opt (some f1) false).2) sec opt (some f1) false := by
  have hs1 : (Settings.getstr s sec opt (some f1) false).2
      = { s with fallback := upd2 s.fallback sec opt f1 } := by
    simp only [Settings.getstr, rememberFallback, h]
  have hlk : lookup2 (Settings.getstr s sec opt (some f1) false).2.fallback sec opt
      = some f1 := by
    rw [hs1]
    exact lookup2_upd2_self s.fallback sec opt f1
  have hrem2 : rememberFallback ((Settings.getstr s sec opt (some f1) false).2) sec opt (some f2)
      = Except.error (SErr.fallbackConflict sec opt) := by
    simp only [rememberFallback, hlk, hne]
    simp
  have hrem1 : rememberFallback ((Settings.getstr s sec opt (some f1) false).2) sec opt (some f1)
      = Except.ok ((Settings.getstr s sec opt (some f1) false).2) := by
    simp only [rememberFallback, hlk, pyEq_refl]
    simp
  refine ⟨hs1, ?_, ?_, ?_, hrem1, ?_⟩
  · rw [Settings.getstr.eq_def, hrem2]
  · rw [Settings.getstr.eq_def, hrem2]
  · simp only [Settings.getstr, rememberFallback]
  · rw [Settings.getstr.eq_def, hrem1]

theorem getter_fallback_conflict_witness :
    lookup2 emptySettings.fallback "t" "a" = Option.none ∧
    pyEq (PyVal.pstr "bar") (PyVal.pstr "baz") = false ∧
    (Settings.getstr ((Settings.getstr emptySettings "t" "a" (some (PyVal.pstr "bar")) false).2)
        "t" "a" (some (PyVal.pstr "baz")) false).1
      = Except.error (SErr.fallbackConflict "t" "a") :=
  ⟨rfl, by decide,
    (getter_fallback_conflict emptySettings "t" "a" (PyVal.pstr "bar") (PyVal.pstr "baz") rfl
      (by decide)).2.1⟩

theorem superGet_missing_some (s : Settings) (sec opt : String) (f : PyVal) (raw : Bool)
    (hm : keyMissing s sec opt = true) :
    superGet s sec opt (some f) raw = Except.ok f := by
  unfold keyMissing at hm
  unfold superGet
  split
  · rename_i opts hc
    rw [hc] at hm
    unfold getFromMap
    rw [Option.isNone_iff_eq_none.mp hm]
  · rename_i hc
    rw [hc] at hm
    cases hdef : (sec == "DEFAULT") with
    | true =>
      rw [hdef] at hm
      simp only [if_true] at hm
      simp only [hdef, if_true]
      unfold getFromMap
      rw [Option.isNone_iff_eq_none.mp hm]
    | false =>
      simp only [hdef, Bool.false_eq_true, if_false]

theorem superGet_missing_none (s : Settings) (sec opt : String) (raw : Bool)
    (hm : keyMissing s sec opt = true) :
    superGet s sec opt Option.none raw = Except.error (SErr.noSection sec) ∨
    superGet s sec opt Option.none raw = Except.error (SErr.noOption (xform opt) sec) := by
  unfold keyMissing at hm
  unfold superGet
  split
  · rename_i opts hc
    rw [hc] at hm
    right
    unfold getFromMap
    rw [Option.isNone_iff_eq_none.mp hm]
  · rename_i hc
    rw [hc] at hm
    cases hdef : (sec == "DEFAULT") with
    | true =>
      rw [hdef] at hm
      simp only [if_true] at hm
      right
      simp only [hdef, if_true]
      unfold getFromMap
      rw [Option.isNone_iff_eq_none.mp hm]
    | false =>
      left
      simp only [hdef, Bool.false_eq_true, if_false]

/-- C9: on a (section, option) key that does not exist (and carries no
conflicting ledger entry): with a non-sentinel fallback, `getstr` and
`getint` both return the caller-supplied fallback exactly, unconverted;
with no fallback supplied they signal a missing-key error (NoSectionError
for a missing section, NoOptionError for a missing option). -/
theorem missing_key_fallback (s : Settings) (sec opt : String) (f : PyVal)
    (hl : lookup2 s.fallback sec opt = Option.none)
    (hm : keyMissing s sec opt = true) :
    (Settings.getstr s sec opt (some f) false).1 = Except.ok f ∧
    ((Settings.getstr s sec opt Option.none false).1 = Except.error (SErr.noSection sec) ∨
     (Settings.getstr s sec opt Option.none false).1
       = Except.error (SErr.noOption (xform opt) sec)) ∧
    (Settings.getint s sec opt (some f)).1 = Except.ok f ∧
    ((Settings.getint s sec opt Option.none).1 = Except.error (SErr.noSection sec) ∨
     (Settings.getint s sec opt Option.none).1
       = Except.error (SErr.noOption (xform opt) sec)) := by
  have hm1 : keyMissing { s with fallback := upd2 s.fallback sec opt f } sec opt = true := hm
  refine ⟨?_, ?_, ?_, ?_⟩
  · simp only [Settings.getstr, rememberFallback, hl]
    exact superGet_missing_some _ sec opt f false hm1
  · simp only [Settings.getstr, rememberFallback]
    exact superGet_missing_none s sec opt false hm
  · simp only [Settings.getint, rememberFallback, hl]
    rcases superGet_missing_none { s with fallback := upd2 s.fallback sec opt f } sec opt false
        hm1 with hcase | hcase
    · rw [hcase]
    · rw [hcase]
  · simp only [Settings.getint, rememberFallback]
    rcases superGet_missing_none s sec opt false hm with hcase | hcase
    · left
      rw [hcase]
    · right
      rw [hcase]

theorem missing_key_fallback_witness :
    lookup2 emptySettings.fallback "t" "a" = Option.none ∧
    keyMissing emptySettings "t" "a" = true ∧
    (Settings.getstr emptySettings "t" "a" (some (PyVal.pint 7)) false).1
      = Except.ok (PyVal.pint 7) :=
  ⟨rfl, by decide,
    (missing_key_fallback emptySettings "t" "a" (PyVal.pint 7) rfl (by decide)).1⟩

theorem superSet_fields (s : Settings) (sec opt value : String) (t : Settings)
    (h : superSet s sec opt value = Except.ok t) :
    t.original = s.original ∧ t.fallback = s.fallback ∧ t.defaults = s.defaults
      ∧ t.ignored_sections = s.ignored_sections := by
  unfold superSet at h
  split at h
  · exact absurd h (by simp)
  · split at h
    · cases h
      exact ⟨rfl, rfl, rfl, rfl⟩
    · split at h
      · exact absurd h (by simp)
      · cases h
        exact ⟨rfl, rfl, rfl, rfl⟩

theorem guard_ok_eq (t tg : Settings) (sec : String)
    (h : (if (t.content.map Prod.fst).contains sec then Except.ok t else addSection t sec)
      = Except.ok tg) : tg = guardAdd t sec := by
  unfold guardAdd
  split at h
  · rename_i hcont
    cases h
    rw [if_pos hcont]
  · rename_i hcont
    unfold addSection at h
    split at h
    · exact absurd h (by simp)
    · cases h
      rw [if_neg hcont]

theorem guardAdd_original (t : Settings) (sec : String) :
    (guardAdd t sec).original = t.original := by
  unfold guardAdd
  split
  · rfl
  · rfl

theorem guardAdd_defaultsect (t : Settings) (sec : String) :
    (guardAdd t sec).defaultsect = t.defaultsect := by
  unfold guardAdd
  split
  · rfl
  · rfl

theorem guardAdd_lookup (s : Settings) (sec : String) :
    ∃ opts, (guardAdd s sec).content.lookup sec = some opts := by
  unfold guardAdd
  by_cases hcont : (s.content.map Prod.fst).contains sec = true
  · rw [if_pos hcont]
    have h2 := contains_eq_lookup_isSome s.content sec
    rw [hcont] at h2
    exact Option.isSome_iff_exists.mp h2.symm
  · rw [if_neg hcont]
    have h2 := contains_eq_lookup_isSome s.content sec
    have h3 : s.content.lookup sec = Option.none := by
      cases hl : s.content.lookup sec with
      | none => rfl
      | some z =>
        rw [hl] at h2
        simp only [Option.isSome_some] at h2
        exact absurd h2 hcont
    exact ⟨[], lookup_append_single s.content sec [] h3⟩

theorem superGet_of_optExists_false (s : Settings) (sec opt x : String)
    (hne : optExists s sec opt = false) :
    superGet (guardAdd s sec) sec opt (some (PyVal.pstr x)) false = Except.ok (PyVal.pstr x) := by
  unfold optExists at hne
  split at hne
  · rename_i opts hcg
    have hnone : (dictUpdate s.defaultsect opts).lookup (xform opt) = Option.none := by
      cases hl : (dictUpdate s.defaultsect opts).lookup (xform opt) with
      | none => rfl
      | some z =>
        rw [hl] at hne
        simp at hne
    unfold superGet
    rw [hcg, guardAdd_defaultsect]
    show getFromMap (dictUpdate s.defaultsect opts) sec opt (some (PyVal.pstr x)) false
        = Except.ok (PyVal.pstr x)
    unfold getFromMap
    rw [hnone]
  · rename_i hcg
    obtain ⟨opts, hl⟩ := guardAdd_lookup s sec
    exact absurd (hl.symm.trans hcg) (by simp)

theorem superGet_pstr_shape (s : Settings) (sec opt x : String) (raw : Bool) (u : PyVal)
    (h : superGet s sec opt (some (PyVal.pstr x)) raw = Except.ok u) :
    ∃ w, u = PyVal.pstr w := by
  unfold superGet getFromMap at h
  split at h
  · split at h
    · cases h
      exact ⟨x, rfl⟩
    · split at h
      · cases h
        exact ⟨_, rfl⟩
      · split at h
        · exact absurd h (by simp)
        · cases h
          exact ⟨_, rfl⟩
  · split at h
    · split at h
      · cases h
        exact ⟨x, rfl⟩
      · split at h
        · cases h
          exact ⟨_, rfl⟩
        · split at h
          · exact absurd h (by simp)
          · cases h
            exact ⟨_, rfl⟩
    · cases h
      exact ⟨x, rfl⟩

/-- C6: only the first temporary write to a (section, option) captures the
pre-write value (as `super().get(section, option, fallback='')` observes
it) into the original-value ledger; when the option did not exist at that
point the captured original is the empty string; and any later temporary
write to the same option leaves the ledger — hence the captured original —
unchanged. -/
theorem first_temporary_capture (s : Settings) (sec opt : String) (v v2 : PyVal) (s1 : Settings)
    (h0 : lookup2 s.original sec opt = Option.none)
    (h : Settings.set s sec opt v true = Except.ok s1) :
    (∃ w, lookup2 s1.original sec opt = some w
        ∧ superGet (guardAdd s sec) sec opt (some (PyVal.pstr "")) false
            = Except.ok (PyVal.pstr w)
        ∧ (optExists s sec opt = false → w = "")) ∧
    (∀ t t2 : Settings, ∀ u, lookup2 t.original sec opt = some u →
        Settings.set t sec opt v2 true = Except.ok t2 → t2.original = t.original) := by
  constructor
  · unfold Settings.set at h
    split at h
    · exact absurd h (by simp)
    · rename_i sg hguard
      have hsg : sg = guardAdd s sec := guard_ok_eq s sg sec hguard
      subst hsg
      rw [if_pos rfl] at h
      have h0g : lookup2 (guardAdd s sec).original sec opt = Option.none := by
        rw [guardAdd_original]
        exact h0
      unfold rememberOriginal at h
      rw [h0g] at h
      cases hsup : superGet (guardAdd s sec) sec opt (some (PyVal.pstr "")) false with
      | error e =>
        rw [hsup] at h
        exact absurd h (by simp)
      | ok vcap =>
        rw [hsup] at h
        obtain ⟨w, hw⟩ := superGet_pstr_shape (guardAdd s sec) sec opt "" false vcap hsup
        subst hw
        refine ⟨w, ?_, ?_, ?_⟩
        · have horig := (superSet_fields _ sec opt (pyStr v) s1 h).1
          rw [horig]
          simp only [guardAdd_original]
          exact lookup2_upd2_self s.original sec opt (pyStr (PyVal.pstr w))
        · rfl
        · intro hne
          have hf := superGet_of_optExists_false s sec opt "" hne
          rw [hsup] at hf
          exact PyVal.pstr.inj (Except.ok.inj hf)
  · intro t t2 u hu ht
    unfold Settings.set at ht
    split at ht
    · exact absurd ht (by simp)
    · rename_i tg hguard
      have htg : tg = guardAdd t sec := guard_ok_eq t tg sec hguard
      subst htg
      rw [if_pos rfl] at ht
      unfold rememberOriginal at ht
      have hug : lookup2 (guardAdd t sec).original sec opt = some u := by
        rw [guardAdd_original]
        exact hu
      rw [hug] at ht
      have := (superSet_fields _ sec opt (pyStr v2) t2 ht).1
      rw [this, guardAdd_original]

theorem first_temporary_capture_witness :
    lookup2 emptySettings.original "t" "a" = Option.none ∧
    Settings.set emptySettings "t" "a" (PyVal.pstr "x") true
      = Except.ok ⟨[("t", [("a", "x")])], [], Option.none, [("t", [("a", "")])], [], []⟩ ∧
    (∃ w, lookup2
          (⟨[("t", [("a", "x")])], [], Option.none, [("t", [("a", "")])], [], []⟩
            : Settings).original "t" "a" = some w
        ∧ superGet (guardAdd emptySettings "t") "t" "a" (some (PyVal.pstr "")) false
            = Except.ok (PyVal.pstr w)
        ∧ (optExists emptySettings "t" "a" = false → w = "")) :=
  ⟨rfl, rfl,
    (first_temporary_capture emptySettings "t" "a" (PyVal.pstr "x") (PyVal.pstr "y")
      ⟨[("t", [("a", "x")])], [], Option.none, [("t", [("a", "")])], [], []⟩ rfl rfl).1⟩

theorem guardAdd_lookup_eq (s : Settings) (sec : String) (opts0 : OptMap)
    (h : (guardAdd s sec).content.lookup sec = some opts0) :
    s.content.lookup sec = some opts0 ∨ opts0 = [] := by
  unfold guardAdd at h
  by_cases hcont : (s.content.map Prod.fst).contains sec = true
  · rw [if_pos hcont] at h
    exact Or.inl h
  · rw [if_neg hcont] at h
    have h3 : s.content.lookup sec = Option.none := by
      have h2 := contains_eq_lookup_isSome s.content sec
      cases hl : s.content.lookup sec with
      | none => rfl
      | some z =>
        rw [hl] at h2
        simp only [Option.isSome_some] at h2
        exact absurd h2 hcont
    rw [lookup_append_single s.content sec [] h3] at h
    exact Or.inr (Option.some.inj h).symm

theorem superGet_found (s : Settings) (sec opt : String) (opts : OptMap) (val : String)
    (fb : Option PyVal)
    (hlk : s.content.lookup sec = some opts)
    (hv : (dictUpdate s.defaultsect opts).lookup (xform opt) = some val)
    (hfree : noPct val = true) :
    superGet s sec opt fb false = Except.ok (PyVal.pstr val) := by
  unfold superGet
  split
  · rename_i opts2 hlk2
    have hoo : opts = opts2 := by
      rw [hlk] at hlk2
      exact Option.some.inj hlk2
    subst hoo
    unfold getFromMap
    split
    · rename_i hv2
      exact absurd (hv.symm.trans hv2) (by simp)
    · rename_i val2 hv2
      have hvv : val = val2 := by
        rw [hv] at hv2
        exact Option.some.inj hv2
      subst hvv
      rw [if_neg (by simp)]
      rw [beforeGet_of_noPct _ val hfree]
  · rename_i hnone
    exact absurd (hlk.symm.trans hnone) (by simp)

theorem set_get_roundtrip (s s1 : Settings) (sec opt : String) (v : PyVal)
    (hsec1 : ¬sec = "") (hsec2 : ¬sec = "DEFAULT")
    (hfree : noPct (pyStr v) = true)
    (hnd : sectNodup s sec = true)
    (h : Settings.set s sec opt v false = Except.ok s1) :
    (Settings.getstr s1 sec opt Option.none false).1 = Except.ok (PyVal.pstr (pyStr v)) := by
  unfold Settings.set at h
  split at h
  · exact absurd h (by simp)
  · rename_i sg hguard
    have hsg : sg = guardAdd s sec := guard_ok_eq s sg sec hguard
    subst hsg
    have h2 : superSet (guardAdd s sec) sec opt (pyStr v) = Except.ok s1 := h
    unfold superSet at h2
    have hbs : (if pyStr v == "" then Except.ok (pyStr v) else beforeSet (pyStr v))
        = Except.ok (pyStr v) := by
      split
      · rfl
      · exact beforeSet_of_noPct (pyStr v) hfree
    rw [hbs] at h2
    have hor : (sec == "" || sec == "DEFAULT") = false := by
      simp [hsec1, hsec2]
    rw [hor] at h2
    simp only [Bool.false_eq_true, if_false] at h2
    obtain ⟨opts0, hlk⟩ := guardAdd_lookup s sec
    rw [hlk] at h2
    have hnd0 : nodupKeys opts0 = true := by
      rcases guardAdd_lookup_eq s sec opts0 hlk with hcase | hcase
      · unfold sectNodup at hnd
        rw [hcase] at hnd
        exact hnd
      · rw [hcase]
        rfl
    have h3 : ({ guardAdd s sec with
        content := updOpts (guardAdd s sec).content sec
          (updOpts opts0 (xform opt) (pyStr v)) } : Settings) = s1 := Except.ok.inj h2
    subst h3
    have hgoal : (Settings.getstr ({ guardAdd s sec with
          content := updOpts (guardAdd s sec).content sec
            (updOpts opts0 (xform opt) (pyStr v)) } : Settings) sec opt Option.none false).1
        = superGet ({ guardAdd s sec with
          content := updOpts (guardAdd s sec).content sec
            (updOpts opts0 (xform opt) (pyStr v)) } : Settings) sec opt Option.none false := rfl
    rw [hgoal]
    refine superGet_found _ sec opt (updOpts opts0 (xform opt) (pyStr v)) (pyStr v)
        Option.none ?_ ?_ hfree
    · exact lookup_updOpts_self (guardAdd s sec).content sec _
    · exact lookup_dictUpdate_some _ _ (xform opt) (pyStr v)
        (nodup_updOpts opts0 (xform opt) (pyStr v) hnd0)
        (lookup_updOpts_self opts0 (xform opt) (pyStr v))

/-- C8 (amended): for every (section, option, value) with a regular
section name (non-empty, not DEFAULT, duplicate-free option dict) and a
value whose canonical string form `str(value)` contains no `%`, `set`
followed by `get_string` returns exactly that canonical string form; only
strings are stored internally (the content maps hold `String` values by
construction).  Values whose string form contains `%` go through
interpolation instead: a bare `%` is rejected by `set`, and e.g. `%%`
reads back as `%` (see the counterexample). -/
theorem set_get_canonical (s s1 : Settings) (sec opt : String) (v : PyVal)
    (hsec1 : ¬sec = "") (hsec2 : ¬sec = "DEFAULT")
    (hfree : noPct (pyStr v) = true) (hnd : sectNodup s sec = true)
    (h : Settings.set s sec opt v false = Except.ok s1) :
    (Settings.getstr s1 sec opt Option.none false).1 = Except.ok (PyVal.pstr (pyStr v)) :=
  set_get_roundtrip s s1 sec opt v hsec1 hsec2 hfree hnd h

theorem set_get_canonical_witness :
    noPct (pyStr (PyVal.pint 12)) = true ∧
    Settings.set emptySettings "t" "a" (PyVal.pint 12) false
      = Except.ok ⟨[("t", [("a", "12")])], [], Option.none, [], [], []⟩ ∧
    (Settings.getstr (⟨[("t", [("a", "12")])], [], Option.none, [], [], []⟩ : Settings)
        "t" "a" Option.none false).1 = Except.ok (PyVal.pstr (pyStr (PyVal.pint 12))) :=
  ⟨by decide, rfl,
    set_get_canonical emptySettings ⟨[("t", [("a", "12")])], [], Option.none, [], [], []⟩
      "t" "a" (PyVal.pint 12) (by decide) (by decide) (by decide) (by decide) rfl⟩

/-- C10 (amended): `set` performs no emptiness validation of names.  An
empty option name is accepted: the value is stored under the empty name in
the section and `get_string` reads it back.  An empty section name is
accepted as well: the value is routed to the parser's DEFAULT option map
(`_defaults`) rather than rejected. -/
theorem set_empty_names_accepted (s s1 : Settings) (sec : String) (v : PyVal)
    (hsec1 : ¬sec = "") (hsec2 : ¬sec = "DEFAULT")
    (hfree : noPct (pyStr v) = true) (hnd : sectNodup s sec = true)
    (h : Settings.set s sec "" v false = Except.ok s1) :
    (Settings.getstr s1 sec "" Option.none false).1 = Except.ok (PyVal.pstr (pyStr v)) ∧
    Settings.set emptySettings "" "b" (PyVal.pstr "w") false
      = Except.ok ⟨[("", [])], [("b", "w")], Option.none, [], [], []⟩ :=
  ⟨set_get_roundtrip s s1 sec "" v hsec1 hsec2 hfree hnd h, rfl⟩

theorem set_empty_names_accepted_witness :
    Settings.set emptySettings "s" "" (PyVal.pstr "v") false = Except.ok c10state ∧
    (Settings.getstr c10state "s" "" Option.none false).1
      = Except.ok (PyVal.pstr (pyStr (PyVal.pstr "v"))) :=
  ⟨rfl,
    (set_empty_names_accepted emptySettings c10state "s" (PyVal.pstr "v")
      (by decide) (by decide) (by decide) (by decide) rfl).1⟩

theorem lookup_mem {α : Type} (l : List (String × α)) (k : String) (v : α)
    (h : l.lookup k = some v) : (k, v) ∈ l := by
  induction l with
  | nil => simp [List.lookup] at h
  | cons p rest ih =>
    obtain ⟨k1, v1⟩ := p
    rw [List.lookup_cons] at h
    cases hk : (k == k1) with
    | true =>
      rw [hk] at h
      simp only [Option.some.injEq] at h
      have hkk : k = k1 := by simpa [beq_iff_eq] using hk
      subst hkk
      subst h
      exact List.mem_cons_self _ _
    | false =>
      rw [hk] at h
      simp only [] at h
      exact List.mem_cons_of_mem _ (ih h)

theorem nodup_lookup_of_mem {α : Type} (l : List (String × α)) (k : String) (v : α)
    (hnd : nodupKeys l = true) (h : (k, v) ∈ l) : l.lookup k = some v := by
  induction l with
  | nil => simp at h
  | cons p rest ih =>
    obtain ⟨k1, v1⟩ := p
    simp only [nodupKeys, Bool.and_eq_true] at hnd
    rw [List.mem_cons] at h
    rw [List.lookup_cons]
    cases h with
    | inl heq =>
      cases heq
      simp
    | inr hmem =>
      cases hk : (k == k1) with
      | true =>
        have hkk : k = k1 := by simpa [beq_iff_eq] using hk
        subst hkk
        have hin : k ∈ rest.map Prod.fst := List.mem_map.mpr ⟨(k, v), hmem, rfl⟩
        have hc := hnd.1
        simp only [Bool.not_eq_true'] at hc
        rw [contains_eq_lookup_isSome] at hc
        have := ih hnd.2 hmem
        rw [this] at hc
        simp at hc
      | false =>
        simp only []
        exact ih hnd.2 hmem

theorem updOpts_append_self {α : Type} (l : List (String × α)) (sec : String) (x y : α)
    (h : l.lookup sec = Option.none) :
    updOpts (l ++ [(sec, x)]) sec y = l ++ [(sec, y)] := by
  induction l with
  | nil => simp [updOpts]
  | cons p rest ih =>
    obtain ⟨k1, v1⟩ := p
    rw [List.lookup_cons] at h
    cases hk : (sec == k1) with
    | true =>
      rw [hk] at h
      simp at h
    | false =>
      rw [hk] at h
      simp only [] at h
      rw [List.cons_append]
      simp only [updOpts]
      have : (k1 == sec) = false := by
        have := (beq_eq_false_iff_ne.mp hk)
        exact beq_eq_false_iff_ne.mpr (fun hh => this hh.symm)
      rw [this]
      simp only [Bool.false_eq_true, if_false]
      rw [ih h]
      simp

theorem superSet_some (s : Settings) (sec opt value : String) (opts : OptMap)
    (hfree : noPct value = true)
    (hor : (sec == "" || sec == "DEFAULT") = false)
    (hlk : s.content.lookup sec = some opts) :
    superSet s sec opt value
      = Except.ok { s with content := updOpts s.content sec (updOpts opts (xform opt) value) } := by
  have hbs : (if value == "" then Except.ok value else beforeSet value) = Except.ok value := by
    split
    · rfl
    · exact beforeSet_of_noPct value hfree
  unfold superSet
  split
  · rename_i e heq
    rw [hbs] at heq
    exact absurd heq (by simp)
  · rename_i v2 heq
    rw [hbs] at heq
    have hv2 : value = v2 := Except.ok.inj heq
    subst hv2
    rw [hor]
    simp only [Bool.false_eq_true, if_false]
    split
    · rename_i hnone
      exact absurd (hlk.symm.trans hnone) (by simp)
    · rename_i opts2 hlk2
      have : opts = opts2 := by
        rw [hlk] at hlk2
        exact Option.some.inj hlk2
      subst this
      rfl

theorem set_ok_shape (t : Settings) (sec k val : String)
    (hsec1 : ¬sec = "") (hsec2 : ¬sec = "DEFAULT")
    (hfree : noPct val = true) (hk : xform k = k) :
    ∃ t2, Settings.set t sec k (PyVal.pstr val) false = Except.ok t2
      ∧ t2.content = setRaw t.content sec k val
      ∧ t2.defaultsect = t.defaultsect := by
  have hor : (sec == "" || sec == "DEFAULT") = false := by
    simp [hsec1, hsec2]
  by_cases hcont : (t.content.map Prod.fst).contains sec = true
  · have h2 := contains_eq_lookup_isSome t.content sec
    rw [hcont] at h2
    obtain ⟨opts, hlkup⟩ := Option.isSome_iff_exists.mp h2.symm
    refine ⟨{ t with content := updOpts t.content sec (updOpts opts k val) }, ?_, ?_, rfl⟩
    · unfold Settings.set
      rw [if_pos hcont]
      show superSet t sec k (pyStr (PyVal.pstr val))
          = Except.ok { t with content := updOpts t.content sec (updOpts opts k val) }
      rw [show pyStr (PyVal.pstr val) = val from rfl]
      rw [superSet_some t sec k val opts hfree hor hlkup, hk]
    · unfold setRaw
      rw [hlkup]
  · have hnone : t.content.lookup sec = Option.none := by
      have h2 := contains_eq_lookup_isSome t.content sec
      cases hl : t.content.lookup sec with
      | none => rfl
      | some z =>
        rw [hl] at h2
        simp only [Option.isSome_some] at h2
        exact absurd h2 hcont
    have hdef : ¬(sec == "DEFAULT") = true := by
      simp [hsec2]
    have hadd : addSection t sec = Except.ok { t with content := t.content ++ [(sec, [])] } := by
      unfold addSection
      rw [if_neg hdef, if_neg hcont]
    refine ⟨{ t with content := t.content ++ [(sec, [(k, val)])] }, ?_, ?_, rfl⟩
    · unfold Settings.set
      rw [if_neg hcont, hadd]
      show superSet { t with content := t.content ++ [(sec, [])] } sec k (pyStr (PyVal.pstr val))
          = Except.ok { t with content := t.content ++ [(sec, [(k, val)])] }
      rw [show pyStr (PyVal.pstr val) = val from rfl]
      rw [superSet_some ({ t with content := t.content ++ [(sec, [])] }) sec k val []
        hfree hor (lookup_append_single t.content sec [] hnone), hk]
      show Except.ok ({ t with
          content := updOpts (t.content ++ [(sec, [])]) sec [(k, val)] } : Settings)
        = Except.ok ({ t with content := t.content ++ [(sec, [(k, val)])] } : Settings)
      rw [updOpts_append_self t.content sec [] [(k, val)] hnone]
    · unfold setRaw
      rw [hnone]

theorem itemsSec_congr (a b : Settings) (sec : String)
    (hc : a.content = b.content) (hd : a.defaultsect = b.defaultsect) :
    itemsSec a sec = itemsSec b sec := by
  unfold itemsSec
  rw [hc, hd]

theorem strLoop_congr (a b : Settings) (l : List String)
    (hc : a.content = b.content) (hd : a.defaultsect = b.defaultsect) :
    strLoop a l = strLoop b l := by
  induction l with
  | nil => rfl
  | cons sec rest ih =>
    simp only [strLoop]
    rw [itemsSec_congr a b sec hc hd, ih]

theorem toStr_congr (a b : Settings)
    (hc : a.content = b.content) (hd : a.defaultsect = b.defaultsect) :
    Settings.toStr a = Settings.toStr b := by
  unfold Settings.toStr
  rw [hc]
  exact strLoop_congr a b _ hc hd

theorem copyOpts_replay_aux (src : Settings) (sec : String) (opts : OptMap)
    (hds : src.defaultsect = [])
    (hsec1 : ¬sec = "") (hsec2 : ¬sec = "DEFAULT")
    (hlk : src.content.lookup sec = some opts)
    (hnd : nodupKeys opts = true)
    (hfree : ∀ q ∈ opts, noPct q.2 = true) :
    ∀ todo : OptMap, (∀ q ∈ todo, opts.lookup q.1 = some q.2) →
      (∀ q ∈ todo, xform q.1 = q.1) →
    ∀ t : Settings, t.defaultsect = [] →
    ∃ c, copyOpts src t sec (todo.map Prod.fst) = Except.ok c
      ∧ c.content = todo.foldl (fun c2 q => setRaw c2 sec q.1 q.2) t.content
      ∧ c.defaultsect = [] := by
  intro todo
  induction todo with
  | nil =>
    intro _ _ t htds
    exact ⟨t, rfl, rfl, htds⟩
  | cons q rest ih =>
    intro htodo hxf t htds
    obtain ⟨k, v⟩ := q
    have hvmem : (k, v) ∈ opts := lookup_mem opts k v (htodo (k, v) (by simp))
    have hvfree : noPct v = true := hfree (k, v) hvmem
    have hxfk : xform k = k := hxf (k, v) (by simp)
    have hget : superGet src sec k Option.none false = Except.ok (PyVal.pstr v) := by
      refine superGet_found src sec k opts v Option.none hlk ?_ hvfree
      rw [hds, hxfk]
      exact lookup_dictUpdate_some opts [] k v hnd (htodo (k, v) (by simp))
    obtain ⟨t2, hset, ht2c, ht2d⟩ := set_ok_shape t sec k v hsec1 hsec2 hvfree hxfk
    have hstep : copyOpts src t sec (((k, v) :: rest).map Prod.fst)
        = copyOpts src t2 sec (rest.map Prod.fst) := by
      simp only [List.map_cons, copyOpts]
      rw [hget]
      show (match Settings.set t sec k (PyVal.pstr v) false with
        | Except.error e => Except.error e
        | Except.ok t1 => copyOpts src t1 sec (rest.map Prod.fst))
          = copyOpts src t2 sec (rest.map Prod.fst)
      rw [hset]
    obtain ⟨c, hc1, hc2, hc3⟩ := ih (fun q hq => htodo q (by simp [hq]))
      (fun q hq => hxf q (by simp [hq])) t2 (ht2d.trans htds)
    refine ⟨c, ?_, ?_, hc3⟩
    · rw [hstep]
      exact hc1
    · rw [hc2, ht2c]
      simp [List.foldl_cons]

theorem copyLoop_replay (src : Settings) :
    ∀ secs : SectMap,
    src.defaultsect = [] →
    (∀ p ∈ secs, src.content.lookup p.1 = some p.2) →
    (∀ p ∈ secs, ¬p.1 = "" ∧ ¬p.1 = "DEFAULT") →
    (∀ p ∈ secs, nodupKeys p.2 = true) →
    (∀ p ∈ secs, ∀ q ∈ p.2, xform q.1 = q.1) →
    (∀ p ∈ secs, ∀ q ∈ p.2, noPct q.2 = true) →
    ∀ t : Settings, t.defaultsect = [] →
    ∃ c, copyLoop src t (secs.map Prod.fst) = Except.ok c
      ∧ c.content = replayItems t.content secs
      ∧ c.defaultsect = [] := by
  intro secs
  induction secs with
  | nil =>
    intro _ _ _ _ _ _ t htds
    exact ⟨t, rfl, rfl, htds⟩
  | cons p rest ih =>
    intro hds hsub hnames hnd hkeys hfree t htds
    obtain ⟨sec, opts⟩ := p
    have hlkp : src.content.lookup sec = some opts := hsub (sec, opts) (by simp)
    have hn := hnames (sec, opts) (by simp)
    have hopts : optionsOf src sec = opts.map Prod.fst := by
      unfold optionsOf
      rw [hlkp, hds]
      rfl
    obtain ⟨c1, hc1a, hc1b, hc1c⟩ := copyOpts_replay_aux src sec opts hds hn.1 hn.2 hlkp
      (hnd (sec, opts) (by simp)) (hfree (sec, opts) (by simp)) opts
      (fun q hq => nodup_lookup_of_mem opts q.1 q.2 (hnd (sec, opts) (by simp))
        (by cases q; exact hq))
      (fun q hq => hkeys (sec, opts) (by simp) q hq) t htds
    have hstep : copyLoop src t (((sec, opts) :: rest).map Prod.fst)
        = copyLoop src c1 (rest.map Prod.fst) := by
      simp only [List.map_cons, copyLoop]
      rw [hopts, hc1a]
    obtain ⟨c, hca, hcb, hcc⟩ := ih hds (fun q hq => hsub q (by simp [hq]))
      (fun q hq => hnames q (by simp [hq])) (fun q hq => hnd q (by simp [hq]))
      (fun q hq => hkeys q (by simp [hq])) (fun q hq => hfree q (by simp [hq])) c1 hc1c
    refine ⟨c, ?_, ?_, hcc⟩
    · rw [hstep]
      exact hca
    · rw [hcb, hc1b]
      unfold replayItems
      simp [List.foldl_cons]

/-- C7 (amended): `copy()` rebuilds a fresh store from the defaults and
then re-sets every current option from `getstr`.  For every store whose
DEFAULT option map is empty, whose section names are regular (non-empty,
not DEFAULT, pairwise distinct), whose option dicts are duplicate-free
with `optionxform`-fixed keys and `%`-free values, and whose content is
reproduced by replaying its (section, option, value) triples over the
freshly constructed defaults content — true in particular for any store
modified only by `set`/`get` since construction — `copy` succeeds and the
copy serializes identically to the source via `__str__`.  A store whose
content no longer contains its defaults (e.g. after `write`'s default
suppression) violates the replay condition, and its copy serializes
differently (see the counterexample). -/
theorem copy_str_identical (s t0 : Settings)
    (hds : s.defaultsect = [])
    (hnames : ∀ p ∈ s.content, ¬p.1 = "" ∧ ¬p.1 = "DEFAULT")
    (hcnd : nodupKeys s.content = true)
    (hnd : ∀ p ∈ s.content, nodupKeys p.2 = true)
    (hkeys : ∀ p ∈ s.content, ∀ q ∈ p.2, xform q.1 = q.1)
    (hfree : ∀ p ∈ s.content, ∀ q ∈ p.2, noPct q.2 = true)
    (hmk : mkSettings s.defaults s.ignored_sections = Except.ok t0)
    (ht0 : t0.defaultsect = [])
    (hreplay : replayItems t0.content s.content = s.content) :
    ∃ c, Settings.copy s = Except.ok c ∧ Settings.toStr c = Settings.toStr s := by
  obtain ⟨c, hca, hcb, hcc⟩ := copyLoop_replay s s.content hds
    (fun p hp => by
      cases p
      exact nodup_lookup_of_mem s.content _ _ hcnd hp)
    hnames hnd hkeys hfree t0 ht0
  refine ⟨c, ?_, ?_⟩
  · unfold Settings.copy
    rw [hmk]
    exact hca
  · exact toStr_congr c s (by rw [hcb, hreplay]) (by rw [hcc, hds])

theorem copy_str_identical_witness :
    mkSettings c7s.defaults c7s.ignored_sections = Except.ok c7t0 ∧
    replayItems c7t0.content c7s.content = c7s.content ∧
    ∃ c, Settings.copy c7s = Except.ok c ∧ Settings.toStr c = Settings.toStr c7s :=
  ⟨rfl, rfl,
    copy_str_identical c7s c7t0 rfl (by decide) (by decide) (by decide) (by decide)
      (by decide) rfl rfl rfl⟩
